import Mathlib

/-!
Verification of the foglet-core Overlay & Messaging Management layer.

The visible source (`src/unnamed/part_000`) is the `Foglet` facade; it
delegates to a `NetworkManager` (overlay registry + shared middleware
pipeline) and per-overlay communication channels whose code is not part of
the visible excerpt.  Those collaborators are modelled from the spec, each
such definition carrying a doc comment starting `Modelled from the spec:`.
Payloads are kept abstract via a type parameter `α`; a JavaScript function
that may `throw` is embedded as `α → Option α`, with `none` standing for a
thrown exception.
-/

/-- Error taxonomy of the spec (§7): `UnknownOverlayError` for a lookup of an
unregistered overlay name, `ConfigurationError` for duplicate overlay
declarations, `ConnectionTimeoutError` for a connection attempt that did not
complete in time. -/
inductive FogletError where
  | UnknownOverlayError
  | ConfigurationError
  | ConnectionTimeoutError
  deriving DecidableEq, Repr

/-- Middleware record as registered through `Foglet.use` (part_000 line 306):
a pair of transformation functions.  The source fields are named `in` and
`out` (reserved words in Lean), rendered here as `mIn`/`mOut`.  `none`
models the function throwing on that input. -/
structure Middleware (α : Type) where
  mIn : α → Option α
  mOut : α → Option α

/-- Modelled from the spec: the Network Manager's middleware registry
(`registerMiddleware(middleware, priority=0)`, not in the visible excerpt)
"inserts into the pipeline at the position determined by priority; equal
priorities preserve insertion order".  The registry is a list ordered by
ascending priority; a new entry is placed after every entry of priority ≤
its own, which keeps equal priorities in insertion order. -/
def insertMiddleware {α : Type} (regs : List (Int × Middleware α))
    (priority : Int) (mw : Middleware α) : List (Int × Middleware α) :=
  match regs with
  | [] => [(priority, mw)]
  | e :: rest =>
    if priority < e.1 then (priority, mw) :: e :: rest
    else e :: insertMiddleware rest priority mw

/-- Modelled from the spec: outbound pipeline application (§4.3, not in the
visible excerpt): "ascending priority, each entry's `out` function applied
to the payload in sequence; any entry that throws is skipped (its
transformation is not applied) and the error is reported via an emitted
diagnostic event, not raised to the caller".  The registry list is already
in ascending-priority order, so the fold runs front to back; the second
component collects the priorities of the entries that threw (the diagnostic
events). -/
def outPipeline {α : Type} (chain : List (Int × Middleware α)) (p : α) :
    α × List Int :=
  match chain with
  | [] => (p, [])
  | e :: rest =>
    match e.2.mOut p with
    | some q => outPipeline rest q
    | none =>
      let r := outPipeline rest p
      (r.1, e.1 :: r.2)

/-- Modelled from the spec: one inbound step over an already-reversed chain
(§4.3): "Inbound application order: exact reverse of outbound (descending
priority), `in` function applied in sequence with the same fault-isolation
rule." -/
def inPipelineRev {α : Type} (chain : List (Int × Middleware α)) (p : α) :
    α × List Int :=
  match chain with
  | [] => (p, [])
  | e :: rest =>
    match e.2.mIn p with
    | some q => inPipelineRev rest q
    | none =>
      let r := inPipelineRev rest p
      (r.1, e.1 :: r.2)

/-- Modelled from the spec: inbound pipeline application, processing the
registry in descending-priority (exact reverse) order. -/
def inPipeline {α : Type} (chain : List (Int × Middleware α)) (p : α) :
    α × List Int :=
  inPipelineRev chain.reverse p

/-- The payload an outbound message carries after the middleware chain. -/
def outPayload {α : Type} (chain : List (Int × Middleware α)) (p : α) : α :=
  (outPipeline chain p).1

/-- The payload delivered to local handlers after the inbound chain. -/
def inPayload {α : Type} (chain : List (Int × Middleware α)) (p : α) : α :=
  (inPipeline chain p).1

/-- Priorities in the registry are in ascending order. -/
def ascendingPriorities {α : Type} (regs : List (Int × Middleware α)) : Prop :=
  List.Chain' (fun a b => a.1 ≤ b.1) regs

lemma inPipelineRev_append {α : Type} (l₁ l₂ : List (Int × Middleware α))
    (p : α) :
    (inPipelineRev (l₁ ++ l₂) p).1 = (inPipelineRev l₂ (inPipelineRev l₁ p).1).1 := by
  induction l₁ generalizing p with
  | nil => simp [inPipelineRev]
  | cons e rest ih =>
    simp only [List.cons_append, inPipelineRev]
    cases h : e.2.mIn p with
    | some q => simp [h, ih]
    | none => simp [h, ih]

lemma insertMiddleware_sorted {α : Type} (regs : List (Int × Middleware α))
    (priority : Int) (mw : Middleware α) (hs : ascendingPriorities regs) :
    ascendingPriorities (insertMiddleware regs priority mw) := by
  induction regs with
  | nil => simp [insertMiddleware, ascendingPriorities]
  | cons e rest ih =>
    simp only [insertMiddleware]
    by_cases hlt : priority < e.1
    · simp only [if_pos hlt]
      exact List.Chain'.cons (le_of_lt hlt) hs
    · simp only [if_neg hlt]
      have hrest : ascendingPriorities rest := hs.tail
      have hins := ih hrest
      rcases rest with _ | ⟨f, rest'⟩
      · simp only [insertMiddleware]
        exact List.chain'_pair.mpr (le_of_not_lt hlt)
      · have hef : e.1 ≤ f.1 := (List.chain'_cons.mp hs).1
        simp only [insertMiddleware] at hins ⊢
        by_cases hlt2 : priority < f.1
        · simp only [if_pos hlt2] at hins ⊢
          exact List.Chain'.cons (le_of_not_lt hlt) hins
        · simp only [if_neg hlt2] at hins ⊢
          exact List.Chain'.cons hef hins

/-- Claim C1: applying all `out` transforms in ascending-priority order and
then all `in` transforms in descending-priority (exact reverse) order yields
a payload equal to the original whenever each middleware's `in` is the
mathematical inverse of its `out`; the ordering symmetry holds for any
registered chain, regardless of the middlewares' contents. -/
theorem middleware_round_trip {α : Type} (chain : List (Int × Middleware α))
    (P : α)
    (hinv : ∀ e ∈ chain, ∀ x : α, ∃ y, e.2.mOut x = some y ∧ e.2.mIn y = some x) :
    inPayload chain (outPayload chain P) = P := by
  induction chain generalizing P with
  | nil => simp [inPayload, outPayload, inPipeline, inPipelineRev, outPipeline]
  | cons e rest ih =>
    obtain ⟨y, hout, hin⟩ := hinv e (List.mem_cons_self e rest) P
    have hrest : ∀ f ∈ rest, ∀ x : α, ∃ y, f.2.mOut x = some y ∧ f.2.mIn y = some x :=
      fun f hf => hinv f (List.mem_cons_of_mem e hf)
    simp only [inPayload, outPayload, inPipeline, outPipeline, hout,
      List.reverse_cons]
    rw [inPipelineRev_append]
    have hih := ih y hrest
    simp only [inPayload, outPayload, inPipeline] at hih
    rw [hih]
    simp [inPipelineRev, hin]

/-- Witness for C1: a two-entry chain with a non-trivial inverse pair
(append / strip a fixed suffix on lists of naturals) round-trips a concrete
payload. -/
theorem middleware_round_trip_witness :
    inPayload
      [((0 : Int), ⟨fun x => some x.dropLast, fun x => some (x ++ [7])⟩),
       ((1 : Int), ⟨fun x => some x.dropLast, fun x => some (x ++ [9])⟩)]
      (outPayload
        [((0 : Int), ⟨fun x => some x.dropLast, fun x => some (x ++ [7])⟩),
         ((1 : Int), ⟨fun x => some x.dropLast, fun x => some (x ++ [9])⟩)]
        [1, 2, 3]) = [1, 2, 3] := by
  apply middleware_round_trip
    (α := List Nat)
    [((0 : Int), ⟨fun x => some x.dropLast, fun x => some (x ++ [7])⟩),
     ((1 : Int), ⟨fun x => some x.dropLast, fun x => some (x ++ [9])⟩)]
    [1, 2, 3]
  intro e he x
  simp only [List.mem_cons, List.mem_singleton] at he
  rcases he with h | h | h
  · subst h; exact ⟨x ++ [7], rfl, by simp⟩
  · subst h; exact ⟨x ++ [9], rfl, by simp⟩
  · cases h

lemma outPipeline_append {α : Type} (l₁ l₂ : List (Int × Middleware α))
    (p : α) :
    outPipeline (l₁ ++ l₂) p =
      ((outPipeline l₂ (outPipeline l₁ p).1).1,
       (outPipeline l₁ p).2 ++ (outPipeline l₂ (outPipeline l₁ p).1).2) := by
  induction l₁ generalizing p with
  | nil => simp [outPipeline]
  | cons e rest ih =>
    simp only [List.cons_append, outPipeline]
    cases h : e.2.mOut p with
    | some q => simp [h, ih]
    | none => simp [h, ih]

lemma inPipelineRev_append_pair {α : Type} (l₁ l₂ : List (Int × Middleware α))
    (p : α) :
    inPipelineRev (l₁ ++ l₂) p =
      ((inPipelineRev l₂ (inPipelineRev l₁ p).1).1,
       (inPipelineRev l₁ p).2 ++ (inPipelineRev l₂ (inPipelineRev l₁ p).1).2) := by
  induction l₁ generalizing p with
  | nil => simp [inPipelineRev]
  | cons e rest ih =>
    simp only [List.cons_append, inPipelineRev]
    cases h : e.2.mIn p with
    | some q => simp [h, ih]
    | none => simp [h, ih]

/-- Claim C3: a middleware entry whose `out` (outbound) or `in` (inbound)
function throws is skipped (its transformation is not applied), the error is
reported as an emitted diagnostic event carrying its priority, and the
remaining entries are still applied.  Outbound, the faulty entry aborts no
current or subsequent send: every payload in any sequence of sends comes out
exactly as without the faulty entry.  Inbound, the fault never prevents
delivery to local handlers: the payload the inbound chain delivers — for
this message and for any sequence of received messages — is exactly the one
the chain without the faulty entry delivers, with the fault reported as a
diagnostic. -/
theorem middleware_fault_isolation {α : Type}
    (l₁ l₂ : List (Int × Middleware α)) (priority : Int) (mw : Middleware α)
    (p : α) :
    ((∀ x : α, mw.mOut x = none) →
      (outPipeline (l₁ ++ (priority, mw) :: l₂) p).1 =
          (outPipeline (l₁ ++ l₂) p).1 ∧
        (outPipeline (l₁ ++ (priority, mw) :: l₂) p).2 =
          (outPipeline l₁ p).2 ++ priority ::
            (outPipeline l₂ (outPipeline l₁ p).1).2 ∧
        ∀ sends : List α,
          sends.map (fun q => (outPipeline (l₁ ++ (priority, mw) :: l₂) q).1) =
            sends.map (fun q => (outPipeline (l₁ ++ l₂) q).1)) ∧
    ((∀ x : α, mw.mIn x = none) →
      (inPipeline (l₁ ++ (priority, mw) :: l₂) p).1 =
          (inPipeline (l₁ ++ l₂) p).1 ∧
        (inPipeline (l₁ ++ (priority, mw) :: l₂) p).2 =
          (inPipelineRev l₂.reverse p).2 ++ priority ::
            (inPipelineRev l₁.reverse (inPipelineRev l₂.reverse p).1).2 ∧
        ∀ msgs : List α,
          msgs.map (fun q => (inPipeline (l₁ ++ (priority, mw) :: l₂) q).1) =
            msgs.map (fun q => (inPipeline (l₁ ++ l₂) q).1)) := by
  have hrevFull : (l₁ ++ (priority, mw) :: l₂).reverse =
      l₂.reverse ++ (priority, mw) :: l₁.reverse := by
    simp
  have hrevWithout : (l₁ ++ l₂).reverse = l₂.reverse ++ l₁.reverse :=
    List.reverse_append l₁ l₂
  constructor
  · intro hout
    have key : ∀ q : α,
        outPipeline ((priority, mw) :: l₂) q =
          ((outPipeline l₂ q).1, priority :: (outPipeline l₂ q).2) := by
      intro q
      simp [outPipeline, hout q]
    refine ⟨?_, ?_, ?_⟩
    · rw [outPipeline_append, outPipeline_append, key]
    · rw [outPipeline_append, key]
    · intro sends
      refine List.map_congr_left ?_
      intro q _
      rw [outPipeline_append, outPipeline_append, key]
  · intro hin
    have keyIn : ∀ (l : List (Int × Middleware α)) (q : α),
        inPipelineRev ((priority, mw) :: l) q =
          ((inPipelineRev l q).1, priority :: (inPipelineRev l q).2) := by
      intro l q
      simp [inPipelineRev, hin q]
    refine ⟨?_, ?_, ?_⟩
    · simp only [inPipeline, hrevFull, hrevWithout]
      rw [inPipelineRev_append_pair, inPipelineRev_append_pair, keyIn]
    · simp only [inPipeline, hrevFull]
      rw [inPipelineRev_append_pair, keyIn]
    · intro msgs
      refine List.map_congr_left ?_
      intro q _
      simp only [inPipeline, hrevFull, hrevWithout]
      rw [inPipelineRev_append_pair, inPipelineRev_append_pair, keyIn]

/-- Witness for C3: a middleware whose `in` and `out` both always throw,
inserted between two working middlewares over `Nat` payloads, is skipped on
both paths, reported with its priority on both paths, and leaves this send,
a batch of further sends, the delivery of this received message to local
handlers, and a batch of further received messages all exactly as without
it. -/
theorem middleware_fault_isolation_witness :
    (outPipeline
        [((0 : Int), ⟨fun x => some (x + 10), fun x => some (x + 1)⟩),
         ((5 : Int), ⟨fun _ => (none : Option Nat), fun _ => none⟩),
         ((9 : Int), ⟨fun x => some (x * 3), fun x => some (x * 2)⟩)] 10).1 =
      (outPipeline
        [((0 : Int), ⟨fun x => some (x + 10), fun x => some (x + 1)⟩),
         ((9 : Int), ⟨fun x => some (x * 3), fun x => some (x * 2)⟩)] 10).1 ∧
    (outPipeline
        [((0 : Int), ⟨fun x => some (x + 10), fun x => some (x + 1)⟩),
         ((5 : Int), ⟨fun _ => (none : Option Nat), fun _ => none⟩),
         ((9 : Int), ⟨fun x => some (x * 3), fun x => some (x * 2)⟩)] 10).2 =
      (outPipeline
          [((0 : Int), ⟨fun x => some (x + 10), fun x => some (x + 1)⟩)]
          10).2 ++
        (5 : Int) ::
          (outPipeline
            [((9 : Int), ⟨fun x => some (x * 3), fun x => some (x * 2)⟩)]
            (outPipeline
              [((0 : Int), ⟨fun x => some (x + 10), fun x => some (x + 1)⟩)]
              10).1).2 ∧
    ([3, 4, 5] : List Nat).map (fun q =>
        (outPipeline
          [((0 : Int), ⟨fun x => some (x + 10), fun x => some (x + 1)⟩),
           ((5 : Int), ⟨fun _ => (none : Option Nat), fun _ => none⟩),
           ((9 : Int), ⟨fun x => some (x * 3), fun x => some (x * 2)⟩)]
          q).1) =
      ([3, 4, 5] : List Nat).map (fun q =>
        (outPipeline
          [((0 : Int), ⟨fun x => some (x + 10), fun x => some (x + 1)⟩),
           ((9 : Int), ⟨fun x => some (x * 3), fun x => some (x * 2)⟩)]
          q).1) ∧
    (inPipeline
        [((0 : Int), ⟨fun x => some (x + 10), fun x => some (x + 1)⟩),
         ((5 : Int), ⟨fun _ => (none : Option Nat), fun _ => none⟩),
         ((9 : Int), ⟨fun x => some (x * 3), fun x => some (x * 2)⟩)] 10).1 =
      (inPipeline
        [((0 : Int), ⟨fun x => some (x + 10), fun x => some (x + 1)⟩),
         ((9 : Int), ⟨fun x => some (x * 3), fun x => some (x * 2)⟩)] 10).1 ∧
    (inPipeline
        [((0 : Int), ⟨fun x => some (x + 10), fun x => some (x + 1)⟩),
         ((5 : Int), ⟨fun _ => (none : Option Nat), fun _ => none⟩),
         ((9 : Int), ⟨fun x => some (x * 3), fun x => some (x * 2)⟩)] 10).2 =
      (inPipelineRev
          ([((9 : Int), ⟨fun x => some (x * 3), fun x => some (x * 2)⟩)] :
            List (Int × Middleware Nat)).reverse 10).2 ++
        (5 : Int) ::
          (inPipelineRev
            ([((0 : Int), ⟨fun x => some (x + 10), fun x => some (x + 1)⟩)] :
              List (Int × Middleware Nat)).reverse
            (inPipelineRev
              ([((9 : Int), ⟨fun x => some (x * 3), fun x => some (x * 2)⟩)] :
                List (Int × Middleware Nat)).reverse 10).1).2 ∧
    ([3, 4, 5] : List Nat).map (fun q =>
        (inPipeline
          [((0 : Int), ⟨fun x => some (x + 10), fun x => some (x + 1)⟩),
           ((5 : Int), ⟨fun _ => (none : Option Nat), fun _ => none⟩),
           ((9 : Int), ⟨fun x => some (x * 3), fun x => some (x * 2)⟩)]
          q).1) =
      ([3, 4, 5] : List Nat).map (fun q =>
        (inPipeline
          [((0 : Int), ⟨fun x => some (x + 10), fun x => some (x + 1)⟩),
           ((9 : Int), ⟨fun x => some (x * 3), fun x => some (x * 2)⟩)]
          q).1) := by
  have h := middleware_fault_isolation
    [((0 : Int), ⟨fun x => some (x + 10), fun x => some (x + 1)⟩)]
    [((9 : Int), ⟨fun x => some (x * 3), fun x => some (x * 2)⟩)]
    5 ⟨fun _ => (none : Option Nat), fun _ => none⟩ 10
  have hout := h.1 (fun _ => rfl)
  have hin := h.2 (fun _ => rfl)
  exact ⟨hout.1, hout.2.1, hout.2.2 [3, 4, 5],
    hin.1, hin.2.1, hin.2.2 [3, 4, 5]⟩

/-- Modelled from the spec: an Overlay Instance is "created once per name …
identity is stable for the life of the Network Manager".  Identity is
represented by a numeric instance identifier; two calls return the same
instance exactly when they return the same identifier. -/
structure OverlayInstance where
  instanceId : Nat
  deriving DecidableEq, Repr

/-- Modelled from the spec: the Network Manager owns the registry mapping
overlay name to Overlay Instance (base overlay unnamed/default) and the
shared middleware pipeline; neither the facade nor any other component
mutates the registry after construction (there is no unregister
operation). -/
structure NetworkManagerState (α : Type) where
  base : OverlayInstance
  registry : List (String × OverlayInstance)
  middlewares : List (Int × Middleware α)

/-- Modelled from the spec: `overlay(name?)` "returns the base RPS instance
when `name` is absent/undefined; otherwise looks up by exact name. Fails
with `UnknownOverlayError` when `name` is provided but not registered".
The facade method `Foglet.overlay` (part_000 line 279) forwards to this. -/
def overlay {α : Type} (nm : NetworkManagerState α) (name : Option String) :
    Except FogletError OverlayInstance :=
  match name with
  | none => .ok nm.base
  | some n =>
    match nm.registry.lookup n with
    | some inst => .ok inst
    | none => .error .UnknownOverlayError

/-- The per-overlay Connection Graph mirrored from the transport collaborator,
plus the Network Manager.  The neighbour list holds the suffixed peer
identifiers the transport currently reports for the base overlay. -/
structure FogletState (α : Type) where
  nm : NetworkManagerState α
  neighbours : List String

/-- Operations available on a constructed foglet: registering a middleware
(`Foglet.use`, part_000 line 306), and the transport collaborator's
connect/disconnect notifications that mutate the Connection Graph. -/
inductive FogletOp (α : Type) where
  | use (mw : Middleware α) (priority : Int)
  | peerUp (id : String)
  | peerDown (id : String)

/-- Modelled from the spec: the state transition of each post-construction
operation.  `use` inserts into the shared pipeline; `peerUp`/`peerDown`
mirror the transport's notifications; none of them touches the overlay
registry (overlays are "never destroyed during the process lifetime (no
unregister operation)"). -/
def stepOp {α : Type} (s : FogletState α) : FogletOp α → FogletState α
  | .use mw priority =>
    { s with nm := { s.nm with middlewares := insertMiddleware s.nm.middlewares priority mw } }
  | .peerUp id => { s with neighbours := s.neighbours ++ [id] }
  | .peerDown id => { s with neighbours := s.neighbours.erase id }

/-- Applying a sequence of post-construction operations. -/
def applySteps {α : Type} (s : FogletState α) (ops : List (FogletOp α)) :
    FogletState α :=
  ops.foldl stepOp s

lemma stepOp_preserves_registry {α : Type} (s : FogletState α)
    (op : FogletOp α) :
    (stepOp s op).nm.registry = s.nm.registry ∧
      (stepOp s op).nm.base = s.nm.base := by
  cases op <;> simp [stepOp]

lemma applySteps_preserves_registry {α : Type} (s : FogletState α)
    (ops : List (FogletOp α)) :
    (applySteps s ops).nm.registry = s.nm.registry ∧
      (applySteps s ops).nm.base = s.nm.base := by
  induction ops generalizing s with
  | nil => simp [applySteps]
  | cons op rest ih =>
    have h := stepOp_preserves_registry s op
    have h2 := ih (stepOp s op)
    simp only [applySteps, List.foldl_cons] at h2 ⊢
    exact ⟨h2.1.trans h.1, h2.2.trans h.2⟩

/-- Claim C2: `overlay(N)` returns the same Overlay Instance on every call —
in particular across any interleaved post-construction operations; with no
name it returns the base RPS instance; and for a provided but unregistered
name it fails with `UnknownOverlayError` instead of silently falling back to
the base overlay. -/
theorem overlay_lookup_spec {α : Type} (s : FogletState α) (n : String)
    (inst : OverlayInstance) :
    (overlay s.nm none = .ok s.nm.base) ∧
      (s.nm.registry.lookup n = some inst →
        overlay s.nm (some n) = .ok inst ∧
        ∀ ops : List (FogletOp α),
          overlay (applySteps s ops).nm (some n) = .ok inst) ∧
      (s.nm.registry.lookup n = none →
        overlay s.nm (some n) = .error .UnknownOverlayError) := by
  refine ⟨rfl, fun hreg => ⟨by simp [overlay, hreg], fun ops => ?_⟩,
    fun hnone => by simp [overlay, hnone]⟩
  have h := applySteps_preserves_registry s ops
  simp [overlay, h.1, hreg]

/-- Witness for C2: a manager with one registered overlay name; the lookup
returns the same instance before and after a peer notification and a
middleware registration, the unnamed lookup returns the base instance, and
an unregistered name fails with `UnknownOverlayError`. -/
theorem overlay_lookup_spec_witness :
    (overlay
        (FogletState.mk (α := Nat)
          ⟨⟨0⟩, [("latencies", ⟨1⟩)], []⟩ ["p1-I"]).nm none =
      .ok ⟨0⟩) ∧
      overlay (FogletState.mk (α := Nat)
        ⟨⟨0⟩, [("latencies", ⟨1⟩)], []⟩ ["p1-I"]).nm (some "latencies") =
        .ok ⟨1⟩ ∧
      overlay (applySteps (FogletState.mk (α := Nat)
          ⟨⟨0⟩, [("latencies", ⟨1⟩)], []⟩ ["p1-I"])
          [FogletOp.peerUp "p2-O", FogletOp.use ⟨some, some⟩ 3,
           FogletOp.peerDown "p1-I"]).nm
        (some "latencies") = .ok ⟨1⟩ ∧
      overlay (FogletState.mk (α := Nat)
        ⟨⟨0⟩, [("latencies", ⟨1⟩)], []⟩ ["p1-I"]).nm (some "unknown") =
        .error .UnknownOverlayError := by
  have h := overlay_lookup_spec
    (FogletState.mk (α := Nat) ⟨⟨0⟩, [("latencies", ⟨1⟩)], []⟩ ["p1-I"])
    "latencies" ⟨1⟩
  have h2 := overlay_lookup_spec
    (FogletState.mk (α := Nat) ⟨⟨0⟩, [("latencies", ⟨1⟩)], []⟩ ["p1-I"])
    "unknown" ⟨1⟩
  exact ⟨h.1, (h.2.1 (by decide)).1,
    (h.2.1 (by decide)).2
      [FogletOp.peerUp "p2-O", FogletOp.use ⟨some, some⟩ 3,
       FogletOp.peerDown "p1-I"],
    h2.2.2 (by decide)⟩

/-- Modelled from the spec: `sendUnicast(peerID, payload) → boolean` (the
Communication Channel behind `Foglet.sendUnicast`, part_000 line 424):
"applies outbound middleware chain to payload, forwards to the transport
collaborator addressed at `peerID`. Returns false (never throws) if
`peerID` is not a currently known neighbor."  The second component records
the transport calls made: pairs of addressee and transmitted payload. -/
def sendUnicast {α : Type} (s : FogletState α) (id : String) (p : α) :
    Bool × List (String × α) :=
  if id ∈ s.neighbours then
    (true, [(id, outPayload s.nm.middlewares p)])
  else
    (false, [])

/-- Keep-first deduplication of a target list, accumulating the identifiers
already seen. -/
def dedupAux (seen : List String) : List String → List String
  | [] => []
  | x :: xs =>
    if x ∈ seen then dedupAux seen xs
    else x :: dedupAux (x :: seen) xs

/-- Deduplication of multicast targets ("Duplicate IDs are deduplicated
before sending"). -/
def dedup (l : List String) : List String :=
  dedupAux [] l

/-- Modelled from the spec: `sendMulticast(peerIDs, payload) → boolean`
(behind `Foglet.sendMulticast`, part_000 line 461): "semantically
`sendUnicast` applied to each ID; returns true only if at least one target
was reachable … Duplicate IDs are deduplicated before sending."  The
transport calls of the individual unicasts are concatenated in order. -/
def sendMulticast {α : Type} (s : FogletState α) (ids : List String) (p : α) :
    Bool × List (String × α) :=
  (dedup ids).foldl
    (fun acc i =>
      let r := sendUnicast s i p
      (acc.1 || r.1, acc.2 ++ r.2))
    (false, [])

lemma mem_dedupAux {seen : List String} {l : List String} {x : String} :
    x ∈ dedupAux seen l ↔ x ∈ l ∧ x ∉ seen := by
  induction l generalizing seen with
  | nil => simp [dedupAux]
  | cons y ys ih =>
    simp only [dedupAux]
    by_cases hy : y ∈ seen
    · simp only [if_pos hy, ih, List.mem_cons]
      constructor
      · rintro ⟨hx, hns⟩; exact ⟨Or.inr hx, hns⟩
      · rintro ⟨hx | hx, hns⟩
        · subst hx; exact absurd hy hns
        · exact ⟨hx, hns⟩
    · simp only [if_neg hy, List.mem_cons, ih, List.mem_cons]
      constructor
      · rintro (hx | ⟨hx, hns⟩)
        · subst hx; exact ⟨Or.inl rfl, hy⟩
        · exact ⟨Or.inr hx, fun hmem => hns (by simpa using Or.inr hmem)⟩
      · rintro ⟨hx | hx, hns⟩
        · exact Or.inl hx
        · by_cases hxy : x = y
          · exact Or.inl hxy
          · exact Or.inr ⟨hx, by simp [hxy, hns]⟩

lemma mem_dedup {l : List String} {x : String} : x ∈ dedup l ↔ x ∈ l := by
  simp [dedup, mem_dedupAux]

lemma nodup_dedupAux (seen : List String) (l : List String) :
    (dedupAux seen l).Nodup := by
  induction l generalizing seen with
  | nil => simp [dedupAux]
  | cons y ys ih =>
    simp only [dedupAux]
    by_cases hy : y ∈ seen
    · simp only [if_pos hy]; exact ih seen
    · simp only [if_neg hy, List.nodup_cons]
      refine ⟨fun hmem => ?_, ih (y :: seen)⟩
      exact (mem_dedupAux.mp hmem).2 (List.mem_cons_self y seen)

lemma sendMulticast_foldl {α : Type} (s : FogletState α) (p : α)
    (targets : List String) (b : Bool) (calls : List (String × α)) :
    targets.foldl
        (fun acc i =>
          let r := sendUnicast s i p
          (acc.1 || r.1, acc.2 ++ r.2))
        (b, calls) =
      (b || targets.any (fun i => decide (i ∈ s.neighbours)),
        calls ++ (targets.filter (fun i => decide (i ∈ s.neighbours))).map
          (fun i => (i, outPayload s.nm.middlewares p))) := by
  induction targets generalizing b calls with
  | nil => simp
  | cons t rest ih =>
    rw [List.foldl_cons]
    show List.foldl _
        (b || (sendUnicast s t p).1, calls ++ (sendUnicast s t p).2) rest = _
    rw [ih]
    by_cases ht : t ∈ s.neighbours
    · simp [sendUnicast, ht, Bool.or_assoc]
    · simp [sendUnicast, ht]

/-- Claim C5: `sendMulticast(ids, P)` deduplicates the identifiers, behaves
as `sendUnicast` on each remaining identifier, delivers the post-middleware
payload exactly once to each target that is a currently known neighbour (the
delivered-target list is the deduplicated list filtered to known neighbours,
and it has no duplicates), and returns true exactly when at least one of the
given targets is a known neighbour. -/
theorem sendMulticast_spec {α : Type} (s : FogletState α) (ids : List String)
    (p : α) :
    (sendMulticast s ids p).2 =
        ((dedup ids).filter (fun i => decide (i ∈ s.neighbours))).map
          (fun i => (i, outPayload s.nm.middlewares p)) ∧
      ((dedup ids).filter (fun i => decide (i ∈ s.neighbours))).Nodup ∧
      ((sendMulticast s ids p).1 = true ↔ ∃ i ∈ ids, i ∈ s.neighbours) := by
  refine ⟨?_, List.Nodup.filter _ (nodup_dedupAux [] ids), ?_⟩
  · simp [sendMulticast, sendMulticast_foldl]
  · simp only [sendMulticast, sendMulticast_foldl, Bool.false_or,
      List.any_eq_true, decide_eq_true_eq]
    constructor
    · rintro ⟨i, hi, hn⟩; exact ⟨i, mem_dedup.mp hi, hn⟩
    · rintro ⟨i, hi, hn⟩; exact ⟨i, mem_dedup.mpr hi, hn⟩

/-- Claim C4: `sendUnicast(peerID, payload)` returns false and makes no
transport call when `peerID` is not a currently known neighbour in the
Connection Graph (a total function — it never throws); for a known
neighbour it applies the outbound middleware chain to the payload and
forwards the result in one transport call addressed at `peerID`. -/
theorem sendUnicast_spec {α : Type} (s : FogletState α) (id : String)
    (p : α) :
    (id ∉ s.neighbours → sendUnicast s id p = (false, [])) ∧
      (id ∈ s.neighbours →
        sendUnicast s id p = (true, [(id, outPayload s.nm.middlewares p)])) := by
  constructor
  · intro h; simp [sendUnicast, h]
  · intro h; simp [sendUnicast, h]

/-- Witness for C4: on a graph knowing `p1-I` and `p2-O`, a unicast to the
unknown `p9` returns false with no transport call, and a unicast to `p1-I`
returns true with one transport call carrying the post-middleware payload
(here an increment middleware turns 41 into 42). -/
theorem sendUnicast_spec_witness :
    sendUnicast
        (FogletState.mk (α := Nat)
          ⟨⟨0⟩, [], [((0 : Int), ⟨some, fun x => some (x + 1)⟩)]⟩
          ["p1-I", "p2-O"]) "p9" 41 = (false, []) ∧
    sendUnicast
        (FogletState.mk (α := Nat)
          ⟨⟨0⟩, [], [((0 : Int), ⟨some, fun x => some (x + 1)⟩)]⟩
          ["p1-I", "p2-O"]) "p1-I" 41 =
      (true, [("p1-I",
        outPayload [((0 : Int), ⟨some, fun x => some (x + 1)⟩)] 41)]) := by
  have h1 := sendUnicast_spec
    (FogletState.mk (α := Nat)
      ⟨⟨0⟩, [], [((0 : Int), ⟨some, fun x => some (x + 1)⟩)]⟩
      ["p1-I", "p2-O"]) "p9" 41
  have h2 := sendUnicast_spec
    (FogletState.mk (α := Nat)
      ⟨⟨0⟩, [], [((0 : Int), ⟨some, fun x => some (x + 1)⟩)]⟩
      ["p1-I", "p2-O"]) "p1-I" 41
  exact ⟨h1.1 (by decide), h2.2 (by decide)⟩

/-- Modelled from the spec: `getNeighbours(limit?)` of the Connection Graph
(behind `Foglet.getNeighbours`, part_000 line 557): "returns up to `limit`
(default: all) currently known peer identifiers including direction
suffixes; … `limit = ∞` is equivalent to all".  An absent or infinite limit
is embedded as `none`. -/
def getNeighbours (known : List String) (limit : Option Nat) : List String :=
  match limit with
  | none => known
  | some l => known.take l

/-- Claim C7: `getNeighbours(limit)` returns at most `limit` identifiers,
each drawn from the currently known peer set (exactly `limit` of them when
at least `limit` peers are known); with no limit (or an infinite one,
embedded as `none`) it returns all currently known peer identifiers. -/
theorem getNeighbours_spec (known : List String) (l : Nat) :
    ((getNeighbours known (some l)).length = min l known.length ∧
      ∀ x ∈ getNeighbours known (some l), x ∈ known) ∧
      getNeighbours known none = known := by
  refine ⟨⟨?_, ?_⟩, rfl⟩
  · simp [getNeighbours]
  · intro x hx
    exact List.mem_of_mem_take hx

/-- Witness for C7: on a graph with 5 known peers, `getNeighbours 2` returns
exactly 2 identifiers, both drawn from the known set, and `getNeighbours`
with no limit returns all 5. -/
theorem getNeighbours_spec_witness :
    (getNeighbours ["a-I", "b-O", "c-I", "d-O", "e-I"] (some 2)).length =
        min 2 (["a-I", "b-O", "c-I", "d-O", "e-I"] : List String).length ∧
      "b-O" ∈ (["a-I", "b-O", "c-I", "d-O", "e-I"] : List String) ∧
      getNeighbours ["a-I", "b-O", "c-I", "d-O", "e-I"] none =
        ["a-I", "b-O", "c-I", "d-O", "e-I"] := by
  have h := getNeighbours_spec ["a-I", "b-O", "c-I", "d-O", "e-I"] 2
  exact ⟨h.1.1, h.1.2 "b-O" (by decide), h.2⟩

/-- `Foglet.getRandomNeighbourId` (part_000 lines 485-499): fetches the
neighbour list, returns `null` when it is empty, otherwise indexes it at
`Math.floor(Math.random() * peers.length)`.  The sampled index is passed in
as `randomIndex`; in the source it always lies below `peers.length` since
`Math.random() < 1`, and `List.get?` returning `none` models an
out-of-range access yielding `undefined`. -/
def getRandomNeighbourId (peers : List String) (randomIndex : Nat) :
    Option String :=
  if peers.length = 0 then none
  else peers.get? randomIndex

/-- Claim C9: with zero known neighbours, `getRandomNeighbourId()` returns
null (here `none`) whatever the random draw, and it never raises an error
(it is a total function into `Option String`). -/
theorem getRandomNeighbourId_empty (peers : List String) (randomIndex : Nat)
    (h : peers.length = 0) :
    getRandomNeighbourId peers randomIndex = none := by
  simp [getRandomNeighbourId, h]

/-- Witness for C9: the empty neighbour list yields `none` at a concrete
random draw. -/
theorem getRandomNeighbourId_empty_witness :
    getRandomNeighbourId [] 3 = none :=
  getRandomNeighbourId_empty [] 3 rfl

/-- Signaling server options (part_000 lines 23-27, defaults lines 52-56). -/
structure SignalingOptions where
  address : String
  room : String
  deriving DecidableEq, Repr

/-- The `config` object inside the WebRTC options (default line 44). -/
structure IceConfig where
  iceServers : List String
  deriving DecidableEq, Repr

/-- WebRTC options (default lines 41-45).  The source types this field
`unknown`; the default value has exactly this shape. -/
structure WebrtcOptions where
  trickle : Bool
  config : IceConfig
  deriving DecidableEq, Repr

/-- `rps.options` of the `Options` interface (part_000 lines 13-28).
`peer` is the optional field the constructor overwrites (line 163). -/
structure RpsOptions where
  peer : Option String
  protocol : String
  webrtc : WebrtcOptions
  timeout : Nat
  pendingTimeout : Nat
  delta : Nat
  maxPeers : Nat
  a : Nat
  b : Nat
  signaling : SignalingOptions
  deriving DecidableEq, Repr

/-- `rps` of the `Options` interface (part_000 lines 11-29). -/
structure RpsConfig where
  type : String
  options : RpsOptions
  deriving DecidableEq, Repr

/-- The `Options` interface (part_000 lines 8-31).  Overlay declarations are
kept opaque; the `ssh` key of the default object is `undefined` (absent) and
not part of the interface, so it is not modelled. -/
structure Options where
  verbose : Bool
  id : String
  rps : RpsConfig
  overlays : List String
  deriving DecidableEq, Repr

/-- `generateDefaultOptions` (part_000 lines 34-77).  The `id` default is
`v4()`, a freshly generated random UUID; the generated value is passed in as
the `uuid` argument. -/
def generateDefaultOptions (uuid : String) : Options :=
  { id := uuid
    verbose := false
    rps :=
      { type := "cyclon"
        options :=
          { peer := none
            protocol := "foglet-example-rps"
            webrtc := { trickle := true, config := { iceServers := [] } }
            timeout := 5 * 1000
            pendingTimeout := 60 * 1000
            delta := 60 * 1000
            maxPeers := 5
            a := 1
            b := 5
            signaling :=
              { address := "https://signaling.herokuapp.com/"
                room := "best-room-for-foglet-rps" } } }
    overlays := [] }

/-- User-supplied signaling options: every field optional
(`Partial<Options>` in the constructor signature, part_000 line 157). -/
structure UserSignaling where
  address : Option String := none
  room : Option String := none

/-- User-supplied `config` inside the WebRTC options. -/
structure UserIceConfig where
  iceServers : Option (List String) := none

/-- User-supplied WebRTC options. -/
structure UserWebrtc where
  trickle : Option Bool := none
  config : Option UserIceConfig := none

/-- User-supplied `rps.options`. -/
structure UserRpsOptions where
  peer : Option String := none
  protocol : Option String := none
  webrtc : Option UserWebrtc := none
  timeout : Option Nat := none
  pendingTimeout : Option Nat := none
  delta : Option Nat := none
  maxPeers : Option Nat := none
  a : Option Nat := none
  b : Option Nat := none
  signaling : Option UserSignaling := none

/-- User-supplied `rps`. -/
structure UserRps where
  type : Option String := none
  options : Option UserRpsOptions := none

/-- User-supplied options object passed to the constructor. -/
structure UserOptions where
  verbose : Option Bool := none
  id : Option String := none
  rps : Option UserRps := none
  overlays : Option (List String) := none

/-- `lodash.merge` on the signaling object: a key present in the source
object wins, an absent key keeps the destination's value. -/
def mergeSignaling (d : SignalingOptions) (u : UserSignaling) :
    SignalingOptions :=
  { address := u.address.getD d.address
    room := u.room.getD d.room }

/-- `lodash.merge` on the `config` object. -/
def mergeIceConfig (d : IceConfig) (u : UserIceConfig) : IceConfig :=
  { iceServers := u.iceServers.getD d.iceServers }

/-- `lodash.merge` on the WebRTC object, descending into `config`. -/
def mergeWebrtc (d : WebrtcOptions) (u : UserWebrtc) : WebrtcOptions :=
  { trickle := u.trickle.getD d.trickle
    config :=
      match u.config with
      | none => d.config
      | some uc => mergeIceConfig d.config uc }

/-- `lodash.merge` on `rps.options`, descending into nested objects. -/
def mergeRpsOptions (d : RpsOptions) (u : UserRpsOptions) : RpsOptions :=
  { peer :=
      match u.peer with
      | none => d.peer
      | some s => some s
    protocol := u.protocol.getD d.protocol
    webrtc :=
      match u.webrtc with
      | none => d.webrtc
      | some uw => mergeWebrtc d.webrtc uw
    timeout := u.timeout.getD d.timeout
    pendingTimeout := u.pendingTimeout.getD d.pendingTimeout
    delta := u.delta.getD d.delta
    maxPeers := u.maxPeers.getD d.maxPeers
    a := u.a.getD d.a
    b := u.b.getD d.b
    signaling :=
      match u.signaling with
      | none => d.signaling
      | some us => mergeSignaling d.signaling us }

/-- `lodash.merge` on `rps`. -/
def mergeRps (d : RpsConfig) (u : UserRps) : RpsConfig :=
  { type := u.type.getD d.type
    options :=
      match u.options with
      | none => d.options
      | some uo => mergeRpsOptions d.options uo }

/-- `merge(generateDefaultOptions(), options)` (part_000 line 160): deep
merge in which every user-supplied (non-undefined) key overrides the
default and every absent key keeps its default. -/
def mergeOptions (d : Options) (u : UserOptions) : Options :=
  { verbose := u.verbose.getD d.verbose
    id := u.id.getD d.id
    rps :=
      match u.rps with
      | none => d.rps
      | some ur => mergeRps d.rps ur
    overlays := u.overlays.getD d.overlays }

/-- The `Foglet` constructor (part_000 lines 157-166): merges the defaults
with the user options, then unconditionally sets `rps.options.peer` to the
merged `id` (line 163).  `uuid` is the random UUID `v4()` drawn when the
defaults were generated. -/
def fogletConstruct (uuid : String) (user : UserOptions) : Options :=
  let merged := mergeOptions (generateDefaultOptions uuid) user
  { merged with
    rps :=
      { merged.rps with
        options := { merged.rps.options with peer := some merged.id } } }

/-- Claim C8: unspecified recognized options take their documented defaults
— with no user `id` the foglet's `id` is the freshly generated random UUID —
and user-supplied option values override the defaults on conflict (specific
wins), shown for the top-level fields and for nested options at every depth
(`rps.type`, `rps.options.maxPeers`, `rps.options.signaling.room`). -/
theorem foglet_construct_options_spec (uuid : String) (user : UserOptions) :
    (fogletConstruct uuid {} =
      { verbose := false
        id := uuid
        rps :=
          { type := "cyclon"
            options :=
              { peer := some uuid
                protocol := "foglet-example-rps"
                webrtc := { trickle := true, config := { iceServers := [] } }
                timeout := 5000
                pendingTimeout := 60000
                delta := 60000
                maxPeers := 5
                a := 1
                b := 5
                signaling :=
                  { address := "https://signaling.herokuapp.com/"
                    room := "best-room-for-foglet-rps" } } }
        overlays := [] }) ∧
      (user.id = none → (fogletConstruct uuid user).id = uuid) ∧
      (∀ i, user.id = some i → (fogletConstruct uuid user).id = i) ∧
      (∀ v, user.verbose = some v → (fogletConstruct uuid user).verbose = v) ∧
      (∀ ovs, user.overlays = some ovs →
        (fogletConstruct uuid user).overlays = ovs) ∧
      (∀ ur t, user.rps = some ur → ur.type = some t →
        (fogletConstruct uuid user).rps.type = t) ∧
      (∀ ur uo n, user.rps = some ur → ur.options = some uo →
        uo.maxPeers = some n →
        (fogletConstruct uuid user).rps.options.maxPeers = n) ∧
      (∀ ur uo us r, user.rps = some ur → ur.options = some uo →
        uo.signaling = some us → us.room = some r →
        (fogletConstruct uuid user).rps.options.signaling.room = r) := by
  refine ⟨rfl, ?_, ?_, ?_, ?_, ?_, ?_, ?_⟩
  · intro h; simp [fogletConstruct, mergeOptions, generateDefaultOptions, h]
  · intro i h; simp [fogletConstruct, mergeOptions, h]
  · intro v h; simp [fogletConstruct, mergeOptions, h]
  · intro ovs h; simp [fogletConstruct, mergeOptions, h]
  · intro ur t hur ht
    simp [fogletConstruct, mergeOptions, mergeRps, hur, ht]
  · intro ur uo n hur huo hn
    cases huo2 : ur.options with
    | none => rw [huo] at huo2; cases huo2
    | some uo2 =>
      rw [huo] at huo2
      cases huo2
      simp [fogletConstruct, mergeOptions, mergeRps, mergeRpsOptions, hur,
        huo, hn]
  · intro ur uo us r hur huo hus hr
    simp [fogletConstruct, mergeOptions, mergeRps, mergeRpsOptions,
      mergeSignaling, hur, huo, hus, hr]

/-- Witness for C8: a user object supplying `id`, `verbose`, `overlays`,
`rps.type`, `rps.options.maxPeers` and `rps.options.signaling.room` wins on
every supplied key, and the empty user object yields the documented
defaults with the generated UUID as `id`. -/
theorem foglet_construct_options_spec_witness :
    fogletConstruct "uuid-1234" {} =
      { verbose := false
        id := "uuid-1234"
        rps :=
          { type := "cyclon"
            options :=
              { peer := some "uuid-1234"
                protocol := "foglet-example-rps"
                webrtc := { trickle := true, config := { iceServers := [] } }
                timeout := 5000
                pendingTimeout := 60000
                delta := 60000
                maxPeers := 5
                a := 1
                b := 5
                signaling :=
                  { address := "https://signaling.herokuapp.com/"
                    room := "best-room-for-foglet-rps" } } }
        overlays := [] } ∧
      (fogletConstruct "uuid-1234"
        { verbose := some true
          id := some "my-id"
          rps := some
            { type := some "spray-wrtc"
              options := some
                { maxPeers := some 9
                  signaling := some { room := some "my-room" } } }
          overlays := some ["latencies"] }).id = "my-id" ∧
      (fogletConstruct "uuid-1234"
        { verbose := some true
          id := some "my-id"
          rps := some
            { type := some "spray-wrtc"
              options := some
                { maxPeers := some 9
                  signaling := some { room := some "my-room" } } }
          overlays := some ["latencies"] }).verbose = true ∧
      (fogletConstruct "uuid-1234"
        { verbose := some true
          id := some "my-id"
          rps := some
            { type := some "spray-wrtc"
              options := some
                { maxPeers := some 9
                  signaling := some { room := some "my-room" } } }
          overlays := some ["latencies"] }).overlays = ["latencies"] ∧
      (fogletConstruct "uuid-1234"
        { verbose := some true
          id := some "my-id"
          rps := some
            { type := some "spray-wrtc"
              options := some
                { maxPeers := some 9
                  signaling := some { room := some "my-room" } } }
          overlays := some ["latencies"] }).rps.type = "spray-wrtc" ∧
      (fogletConstruct "uuid-1234"
        { verbose := some true
          id := some "my-id"
          rps := some
            { type := some "spray-wrtc"
              options := some
                { maxPeers := some 9
                  signaling := some { room := some "my-room" } } }
          overlays := some ["latencies"] }).rps.options.maxPeers = 9 ∧
      (fogletConstruct "uuid-1234"
        { verbose := some true
          id := some "my-id"
          rps := some
            { type := some "spray-wrtc"
              options := some
                { maxPeers := some 9
                  signaling := some { room := some "my-room" } } }
          overlays := some ["latencies"] }).rps.options.signaling.room =
        "my-room" := by
  have h := foglet_construct_options_spec "uuid-1234"
    { verbose := some true
      id := some "my-id"
      rps := some
        { type := some "spray-wrtc"
          options := some
            { maxPeers := some 9
              signaling := some { room := some "my-room" } } }
      overlays := some ["latencies"] }
  exact ⟨h.1, h.2.2.1 "my-id" rfl, h.2.2.2.1 true rfl,
    h.2.2.2.2.1 ["latencies"] rfl,
    h.2.2.2.2.2.1 _ "spray-wrtc" rfl rfl,
    h.2.2.2.2.2.2.1 _ _ 9 rfl rfl rfl,
    h.2.2.2.2.2.2.2 _ _ _ "my-room" rfl rfl rfl rfl⟩

/-- Claim C10: after construction the merged options always satisfy
`rps.options.peer = id` — the constructor unconditionally overwrites any
user-supplied `rps.options.peer` with the foglet's `id` (the supplied `id`
or the generated UUID), for every user options object. -/
theorem constructor_forces_peer_eq_id (uuid : String) (user : UserOptions) :
    (fogletConstruct uuid user).rps.options.peer =
      some ((fogletConstruct uuid user).id) := rfl

/-- Per-peer connection lifecycle states of the Signaling Lifecycle (§4.4):
`Disconnected → Pending → Connected`. -/
inductive PeerConnState where
  | Disconnected
  | Pending
  | Connected
  deriving DecidableEq, Repr

/-- Modelled from the spec: the outcome of one `connection()` attempt of the
Signaling Lifecycle (not in the visible excerpt; `Foglet.connection`,
part_000 lines 213-241, forwards the collaborator's rejection unchanged):
"`connection()` fails with `ConnectionTimeoutError` if no state transition
to `Connected` occurs within `timeoutMs` …; it must reject, not hang, and
must clean up any pending transport resources on timeout", leaving the
Connection Graph unchanged.  Time is logical: `transitions` lists the
timestamped connection-state transitions the attempt observes; the result
carries the settled outcome, the Connection Graph after the attempt, and the
pending transport resources still held. -/
def connectionAttempt (transitions : List (Nat × PeerConnState))
    (timeoutMs : Nat) (graph : List String) (pending : List Nat)
    (peer : String) : Except FogletError Bool × List String × List Nat :=
  if transitions.any (fun ts =>
      decide (ts.1 ≤ timeoutMs) && decide (ts.2 = PeerConnState.Connected)) then
    (.ok true, graph ++ [peer], pending)
  else
    (.error .ConnectionTimeoutError, graph, [])

/-- Claim C6: when no transition to `Connected` occurs within `timeoutMs`,
the connection attempt settles (the embedding is a total function, so it
rejects rather than hangs) with `ConnectionTimeoutError`, releases every
pending transport resource, and leaves the Connection Graph unchanged. -/
theorem connection_timeout_spec (transitions : List (Nat × PeerConnState))
    (timeoutMs : Nat) (graph : List String) (pending : List Nat)
    (peer : String)
    (h : ∀ ts ∈ transitions,
      ¬(ts.1 ≤ timeoutMs ∧ ts.2 = PeerConnState.Connected)) :
    connectionAttempt transitions timeoutMs graph pending peer =
      (.error .ConnectionTimeoutError, graph, []) := by
  have hany : transitions.any (fun ts =>
      decide (ts.1 ≤ timeoutMs) && decide (ts.2 = PeerConnState.Connected)) =
      false := by
    rw [List.any_eq_false]
    intro ts hts
    have := h ts hts
    simp only [Bool.and_eq_true, decide_eq_true_eq]
    exact fun hts2 => this hts2
  simp [connectionAttempt, hany]

/-- Witness for C6: a non-responsive peer whose only observed transition is
`Pending` at 50ms, against `timeoutMs = 100`: the attempt rejects with
`ConnectionTimeoutError`, the graph `["a-I"]` is unchanged, and the two
pending transport resources are released. -/
theorem connection_timeout_spec_witness :
    connectionAttempt [(50, PeerConnState.Pending)] 100 ["a-I"] [1, 2] "b" =
      (.error .ConnectionTimeoutError, ["a-I"], []) :=
  connection_timeout_spec [(50, PeerConnState.Pending)] 100 ["a-I"] [1, 2] "b"
    (by decide)

/-- Witness for C5: a multicast to two known targets and one unknown target,
with a duplicate in the list: the transport-call list is exactly the
deduplicated-and-filtered characterization, and the multicast reports
success because at least one target was reachable. -/
theorem sendMulticast_spec_witness :
    (sendMulticast
        (FogletState.mk (α := Nat)
          ⟨⟨0⟩, [], [((0 : Int), ⟨some, fun x => some (x + 1)⟩)]⟩
          ["p1", "p2"]) ["p1", "p4", "p2", "p1"] 41).2 =
      ((dedup ["p1", "p4", "p2", "p1"]).filter (fun i =>
          decide (i ∈ (FogletState.mk (α := Nat)
            ⟨⟨0⟩, [], [((0 : Int), ⟨some, fun x => some (x + 1)⟩)]⟩
            ["p1", "p2"]).neighbours))).map
        (fun i => (i,
          outPayload [((0 : Int), ⟨some, fun x => some (x + 1)⟩)] 41)) ∧
    (sendMulticast
        (FogletState.mk (α := Nat)
          ⟨⟨0⟩, [], [((0 : Int), ⟨some, fun x => some (x + 1)⟩)]⟩
          ["p1", "p2"]) ["p1", "p4", "p2", "p1"] 41).1 = true := by
  have h := sendMulticast_spec
    (FogletState.mk (α := Nat)
      ⟨⟨0⟩, [], [((0 : Int), ⟨some, fun x => some (x + 1)⟩)]⟩
      ["p1", "p2"]) ["p1", "p4", "p2", "p1"] 41
  exact ⟨h.1, h.2.2.mpr ⟨"p1", by decide, by decide⟩⟩
